import Mathlib

/-!
Verification of the music-playlist backend (`backend/main.py`).

The file shallowly embeds the pure decision logic of the backend:

* `SearchParams` and the Spotify query-string builder of `search_spotify`
  (`truthy`, `stripApos`, `strIn`, `baseParts`, `eraParts`, `queryParts`,
  `searchQuery`);
* the response-cleaning step of `parse_query` (Python `str.strip`,
  `str.split("```")`, `str.replace("json", "")` are embedded on `List Char`
  as `strip`, `splitFence`, `replJson`);
* the token fetch `get_spotify_token`, the search call `search_spotify`
  and the `/api/search` orchestrator `search`, with every external network
  response passed in explicitly through an `Env` value.

Stateful/IO parts (HTTP transport, environment loading) are represented by
explicit inputs; the functions themselves are translated line by line from
the source.
-/

/-- `SearchParams` (pydantic model): three independently optional fields. -/
structure SearchParams where
  genre : Option String := none
  artist : Option String := none
  era : Option String := none
deriving DecidableEq, Repr

/-- Opaque Spotify track item; the backend never looks inside beyond passing
the raw list through, so a single id field suffices. -/
structure Track where
  id : String
deriving DecidableEq, Repr

/-- Python truthiness of an optional string (`if params.genre:`):
`None` and `""` are falsy. -/
def truthy : Option String → Bool
  | none => false
  | some s => !(s == "")

/-- `era.replace("'", "")`: drop every apostrophe (single-character pattern,
so Python replace coincides with a filter). -/
def stripApos (s : String) : String :=
  String.mk (s.data.filter (fun c => !(c == '\'')))

/-- Python substring containment `needle in hay` on lists of characters. -/
def containsSub (pat : List Char) : List Char → Bool
  | [] => pat.isEmpty
  | c :: rest => pat.isPrefixOf (c :: rest) || containsSub pat rest

/-- Python `needle in hay` on strings. -/
def strIn (needle hay : String) : Bool :=
  containsSub needle.data hay.data

/-- The `genre:`/`artist:` parts of the query, in the fixed source order
(`search_spotify`, query_parts building). -/
def baseParts (p : SearchParams) : List String :=
  (if truthy p.genre then ["genre:" ++ p.genre.getD ""] else []) ++
  (if truthy p.artist then ["artist:" ++ p.artist.getD ""] else [])

/-- The year-filter part appended by the `if params.era:` block of
`search_spotify`: apostrophes dropped, then the if/elif substring chain. -/
def eraParts : Option String → List String
  | none => []
  | some e =>
    if e = "" then []
    else
      let era := stripApos e
      if strIn "80s" era || strIn "1980" era then ["year:1980-1989"]
      else if strIn "90s" era || strIn "1990" era then ["year:1990-1999"]
      else if strIn "2000s" era then ["year:2000-2009"]
      else if strIn "2010s" era then ["year:2010-2019"]
      else if strIn "2020s" era then ["year:2020-2029"]
      else []

/-- All query parts in source order: genre, artist, then the year filter. -/
def queryParts (p : SearchParams) : List String :=
  baseParts p ++ eraParts p.era

/-- `search_query = " ".join(query_parts)`. -/
def searchQuery (p : SearchParams) : String :=
  String.intercalate " " (queryParts p)

/-! ### Python string primitives used by `parse_query`'s cleaning step -/

/-- The whitespace set of Python `str.strip()`. -/
def pyWS (c : Char) : Bool :=
  c == ' ' || c == '\t' || c == '\n' || c == '\r' || c == '\x0b' || c == '\x0c'

/-- Python `str.strip()`: drop whitespace from both ends. -/
def strip (xs : List Char) : List Char :=
  ((xs.dropWhile pyWS).reverse.dropWhile pyWS).reverse

/-- Python `s.split("```")`: split on non-overlapping occurrences of the
triple-backtick fence, left to right. -/
def splitFence : List Char → List (List Char)
  | a :: b :: c :: rest =>
    if a = '`' ∧ b = '`' ∧ c = '`' then
      [] :: splitFence rest
    else
      match splitFence (b :: c :: rest) with
      | [] => [[a]]
      | s :: ss => (a :: s) :: ss
  | xs => [xs]

/-- Python `s.replace("json", "")`: delete non-overlapping occurrences of
`json`, left to right. -/
def replJson : List Char → List Char
  | a :: b :: c :: d :: rest =>
    if a = 'j' ∧ b = 's' ∧ c = 'o' ∧ d = 'n' then
      replJson rest
    else
      a :: replJson (b :: c :: d :: rest)
  | xs => xs

/-- Python `"```" in s`. -/
def hasFence : List Char → Bool
  | a :: b :: c :: rest =>
    (a = '`' ∧ b = '`' ∧ c = '`' : Bool) || hasFence (b :: c :: rest)
  | _ => false

/-- Python `"json" in s`. -/
def hasJson : List Char → Bool
  | a :: b :: c :: d :: rest =>
    (a = 'j' ∧ b = 's' ∧ c = 'o' ∧ d = 'n' : Bool) || hasJson (b :: c :: d :: rest)
  | _ => false

/-- The cleaning step of `parse_query`: the content is stripped on
extraction, and if it contains a fence the part between the first two
fences is taken, `json` tags deleted, and the result stripped again:
`content.split("```")[1].replace("json", "").strip()`. -/
def clean (raw : List Char) : List Char :=
  let c := strip raw
  if hasFence c then strip (replJson ((splitFence c).getD 1 [])) else c

/-- A model response wrapped in triple-backtick fences with a `json`
language tag, as in the spec's round-trip property. -/
def wrapFence (t : List Char) : List Char :=
  '`' :: '`' :: '`' :: 'j' :: 's' :: 'o' :: 'n' :: '\n' :: (t ++ ('\n' :: '`' :: '`' :: ['`']))

/-! ### A model of `json.loads` + `SearchParams(**data)` on flat objects

The backend decodes the cleaned model reply with the Python standard
library (`json.loads`) and pydantic (`SearchParams(**data)`), which are
external to the repository.  They are modelled here for the fragment the
backend exercises: a flat JSON object with string keys and string values
(no escape sequences).  Every failure of the real pair — non-JSON text,
a non-object value, non-string field values — is collapsed into `none`,
which matches the backend's behaviour because its bare `except:` turns
every such failure into the all-absent `SearchParams`. -/

/-- JSON whitespace. -/
def jsonWS (c : Char) : Bool :=
  c == ' ' || c == '\t' || c == '\n' || c == '\r'

/-- Skip JSON whitespace. -/
def skipWS (s : List Char) : List Char :=
  s.dropWhile jsonWS

/-- Parse a JSON string literal without escapes; returns it plus the rest. -/
def parseJStr : List Char → Option (String × List Char)
  | '"' :: rest =>
    let s := rest.takeWhile (fun c => !(c == '"'))
    match rest.dropWhile (fun c => !(c == '"')) with
    | '"' :: r => some (String.mk s, r)
    | _ => none
  | _ => none

/-- Parse `"key" : "value"` members up to the closing brace (fuel-bounded;
the fuel is always set to more than the input length, which suffices since
every step consumes at least one character). -/
def parseMembers : Nat → List Char → Option (List (String × String) × List Char)
  | 0, _ => none
  | fuel + 1, s =>
    match parseJStr (skipWS s) with
    | none => none
    | some (k, r1) =>
      match skipWS r1 with
      | ':' :: r2 =>
        match parseJStr (skipWS r2) with
        | none => none
        | some (v, r3) =>
          match skipWS r3 with
          | ',' :: r4 =>
            match parseMembers fuel r4 with
            | some (ps, r5) => some ((k, v) :: ps, r5)
            | none => none
          | '}' :: r4 => some ([(k, v)], r4)
          | _ => none
      | _ => none

/-- Parse a whole flat JSON object, requiring only whitespace after it. -/
def jsonFlat (raw : List Char) : Option (List (String × String)) :=
  match skipWS raw with
  | '{' :: r =>
    match skipWS r with
    | '}' :: r2 => if skipWS r2 = [] then some [] else none
    | _ =>
      match parseMembers (raw.length + 1) r with
      | some (ps, r2) => if skipWS r2 = [] then some ps else none
      | none => none
  | _ => none

/-- Python dict lookup (later duplicate key wins). -/
def dictGet (pairs : List (String × String)) (k : String) : Option String :=
  (pairs.reverse.find? (fun p => p.1 == k)).map Prod.snd

/-- `SearchParams(**json.loads(content))` on the modelled fragment:
recognized keys are read, unrecognized keys are ignored, missing keys stay
absent; `none` stands for any exception of the real pair. -/
def decodeParams (raw : List Char) : Option SearchParams :=
  match jsonFlat raw with
  | none => none
  | some pairs =>
    some { genre := dictGet pairs "genre"
           artist := dictGet pairs "artist"
           era := dictGet pairs "era" }

/-! ### Query interpreter `parse_query` -/

/-- Shape of the model-provider HTTP response body, as far as the line
`response.json()["choices"][0]["message"]["content"]` distinguishes it:
either that path extracts a content string, or the body is not valid JSON
of that shape (in which case the line raises). -/
inductive LMBody where
  | malformed
  | ok (content : List Char)
deriving DecidableEq

/-- A model-provider HTTP response. -/
structure LMResp where
  status : Nat
  body : LMBody
deriving DecidableEq

/-- The clean-then-decode tail of `parse_query`, parameterized by the
decoder (`json.loads` + `SearchParams(**data)`); the bare `except:` turns
any decoder failure into the all-absent `SearchParams()`. -/
def parseContent (decode : List Char → Option SearchParams) (raw : List Char) : SearchParams :=
  (decode (clean raw)).getD {}

/-- `parse_query`, as a function of the provider response.  `.error`
represents an uncaught exception escaping the function: the only such
exception is the extraction line raising on a 200 response whose body is
not JSON of the expected shape. -/
def parse_query (decode : List Char → Option SearchParams) (r : LMResp) :
    Except String SearchParams :=
  if r.status ≠ 200 then .ok {}
  else
    match r.body with
    | .malformed => .error "model response body is not JSON with choices[0].message.content"
    | .ok content => .ok (parseContent decode content)

/-! ### Catalog authenticator `get_spotify_token` -/

/-- Body of the Spotify token response: either it carries an
`access_token` field, or it does not (`repr` standing for the printed
`data` in the error message). -/
inductive TokenBody where
  | withToken (tok : String)
  | noToken (repr : String)
deriving DecidableEq

/-- A Spotify token-endpoint HTTP response. -/
structure TokenResp where
  status : Nat
  text : String
  body : TokenBody
deriving DecidableEq

/-- `get_spotify_token`, as a function of the two environment secrets and
the token-endpoint response.  The `Bool` records whether the network call
was issued (the credentials check happens before the HTTP request);
`.error` is a raised exception. -/
def get_spotify_token (clientId clientSecret : Option String) (resp : TokenResp) :
    Bool × Except String String :=
  if !truthy clientId || !truthy clientSecret then
    (false, .error "Spotify credentials not found in .env file")
  else if resp.status ≠ 200 then
    (true, .error ("Spotify authentication failed: " ++ resp.text))
  else
    match resp.body with
    | .withToken tok => (true, .ok tok)
    | .noToken r => (true, .error ("No access_token in response: " ++ r))

/-! ### Catalog search `search_spotify` and the `/api/search` orchestrator -/

/-- `search_spotify`, as a function of the search-endpoint behaviour
`net` (mapping the query string to `none` for a non-200 response or
`some items` for a 200 one).  The `Bool` records whether the search
request was issued: with neither genre nor artist the function returns
`None` before any network call. -/
def search_spotify (net : String → Option (List Track)) (p : SearchParams)
    (_token : String) : Bool × Option (List Track) :=
  if !truthy p.genre && !truthy p.artist then (false, none)
  else (true, net (searchQuery p))

/-- The uniform result envelope `{error?, extracted_params, tracks}`.
`extracted_params` is the `SearchParams` rendered into the response
(`params.dict()` on the success/no-result paths, the literal `{}` on the
exception path). -/
structure Envelope where
  error : Option String
  extracted_params : SearchParams
  tracks : List Track
deriving DecidableEq

/-- Everything external that one `/api/search` request can observe. -/
structure Env where
  decode : List Char → Option SearchParams
  lm : LMResp
  clientId : Option String
  clientSecret : Option String
  tokenResp : TokenResp
  net : String → Option (List Track)

/-- The endpoint's result plus which outbound catalog calls were issued. -/
structure Outcome where
  envelope : Envelope
  tokenCalled : Bool
  searchCalled : Bool
deriving DecidableEq

/-- The `/api/search` orchestrator `search`: parse, then token, then
search; `if not tracks:` catches both `None` and `[]`; any exception is
caught and converted into the uniform error envelope with
`extracted_params = {}`. -/
def search (env : Env) : Outcome :=
  match parse_query env.decode env.lm with
  | .error e =>
    { envelope := { error := some ("Error: " ++ e), extracted_params := {}, tracks := [] }
      tokenCalled := false, searchCalled := false }
  | .ok params =>
    match get_spotify_token env.clientId env.clientSecret env.tokenResp with
    | (tc, .error e) =>
      { envelope := { error := some ("Error: " ++ e), extracted_params := {}, tracks := [] }
        tokenCalled := tc, searchCalled := false }
    | (tc, .ok token) =>
      match search_spotify env.net params token with
      | (sc, none) =>
        { envelope := { error := some "Sorry, can't find any tracks"
                        extracted_params := params, tracks := [] }
          tokenCalled := tc, searchCalled := sc }
      | (sc, some []) =>
        { envelope := { error := some "Sorry, can't find any tracks"
                        extracted_params := params, tracks := [] }
          tokenCalled := tc, searchCalled := sc }
      | (sc, some (t :: ts)) =>
        { envelope := { error := none, extracted_params := params, tracks := t :: ts }
          tokenCalled := tc, searchCalled := sc }

/-! ### The spec-side era table, query-part predicates and test fixtures -/

/-- The spec's era table: five rows of substring tokens, first matching row
wins, apostrophes dropped before matching. -/
def eraTable : List (List String × String) :=
  [(["80s", "1980"], "year:1980-1989"),
   (["90s", "1990"], "year:1990-1999"),
   (["2000s"], "year:2000-2009"),
   (["2010s"], "year:2010-2019"),
   (["2020s"], "year:2020-2029")]

/-- The year filter as the spec words it: look up the first row of the
fixed table one of whose tokens occurs in the apostrophe-stripped era. -/
def specYearFilter (e : String) : Option String :=
  (eraTable.find? (fun row => row.1.any (fun tok => strIn tok (stripApos e)))).map Prod.snd

/-- Whether a query part is a year filter (starts with `year:`). -/
def isYearPart (s : String) : Bool :=
  match s.data with
  | 'y' :: 'e' :: 'a' :: 'r' :: ':' :: _ => true
  | _ => false

/-- Whether a token-response body lacks the access-token field. -/
def lacksToken : TokenBody → Bool
  | .withToken _ => false
  | .noToken _ => true

/-- Whether an authenticator result is a raised error. -/
def isErr : Except String String → Bool
  | .error _ => true
  | .ok _ => false

def mockNet : String → Option (List Track) := fun _ => some [{ id := "track1" }]

def tokenOK : TokenResp := { status := 200, text := "", body := .withToken "tok" }

def envEmptyParams : Env :=
  { decode := decodeParams
    lm := { status := 200, body := .ok "\x7b\x7d".data }
    clientId := some "id", clientSecret := some "secret"
    tokenResp := tokenOK, net := mockNet }

def envEraOnly : Env :=
  { envEmptyParams with lm := { status := 200, body := .ok "\x7b\"era\":\"90s\"\x7d".data } }

def envNoCreds : Env :=
  { envEmptyParams with
      lm := { status := 200, body := .ok "\x7b\"genre\":\"pop\"\x7d".data }
      clientId := none }

def envBadToken : Env :=
  { envEmptyParams with
      lm := { status := 200, body := .ok "\x7b\"genre\":\"pop\"\x7d".data }
      tokenResp := { status := 500, text := "server error", body := .noToken "\x7b\x7d" } }

/-! ### Helper lemmas -/

theorem dropWhile_eq_nil_append {p : Char → Bool} {xs : List Char} (ys : List Char)
    (h : xs.dropWhile p = []) : (xs ++ ys).dropWhile p = ys.dropWhile p := by
  induction xs with
  | nil => simp
  | cons a l ih =>
    by_cases hp : p a
    · rw [List.cons_append, List.dropWhile_cons_of_pos hp]
      rw [List.dropWhile_cons_of_pos hp] at h
      exact ih h
    · rw [List.dropWhile_cons_of_neg hp] at h
      simp at h

theorem dropWhile_eq_cons_append {p : Char → Bool} {xs : List Char} {y : Char} {l : List Char}
    (ys : List Char) (h : xs.dropWhile p = y :: l) :
    (xs ++ ys).dropWhile p = y :: (l ++ ys) := by
  induction xs with
  | nil => simp at h
  | cons a m ih =>
    by_cases hp : p a
    · rw [List.cons_append, List.dropWhile_cons_of_pos hp]
      rw [List.dropWhile_cons_of_pos hp] at h
      exact ih h
    · rw [List.dropWhile_cons_of_neg hp] at h
      rw [List.cons_append, List.dropWhile_cons_of_neg hp]
      rw [List.cons.injEq] at h
      rw [h.1, h.2]

theorem mem_dropWhile {p : Char → Bool} {xs : List Char} {c : Char}
    (h : c ∈ xs.dropWhile p) : c ∈ xs := by
  induction xs with
  | nil => simp at h
  | cons a l ih =>
    by_cases hp : p a
    · rw [List.dropWhile_cons_of_pos hp] at h
      exact List.mem_cons_of_mem _ (ih h)
    · rwa [List.dropWhile_cons_of_neg hp] at h

theorem mem_strip {xs : List Char} {c : Char} (h : c ∈ strip xs) : c ∈ xs := by
  unfold strip at h
  rw [List.mem_reverse] at h
  have h1 := mem_dropWhile h
  rw [List.mem_reverse] at h1
  exact mem_dropWhile h1

theorem strip_cons_ws {c : Char} (hc : pyWS c) (xs : List Char) :
    strip (c :: xs) = strip xs := by
  unfold strip
  rw [List.dropWhile_cons_of_pos hc]

theorem strip_append_ws {c : Char} (hc : pyWS c) (xs : List Char) :
    strip (xs ++ [c]) = strip xs := by
  unfold strip
  cases h : xs.dropWhile pyWS with
  | nil =>
    have e1 : (xs ++ [c]).dropWhile pyWS = [c].dropWhile pyWS :=
      dropWhile_eq_nil_append [c] h
    have e2 : [c].dropWhile pyWS = ([] : List Char) := by
      rw [List.dropWhile_cons_of_pos hc]
      rfl
    rw [e1, e2]
  | cons y l =>
    have e1 : (xs ++ [c]).dropWhile pyWS = y :: (l ++ [c]) :=
      dropWhile_eq_cons_append [c] h
    rw [e1]
    have e2 : (y :: (l ++ [c])).reverse = c :: (y :: l).reverse := by
      simp
    rw [e2, List.dropWhile_cons_of_pos hc]

theorem splitFence_cons {a : Char} (ha : a ≠ '`') {xs : List Char} {s : List Char}
    {ss : List (List Char)} (hx : splitFence xs = s :: ss) :
    splitFence (a :: xs) = (a :: s) :: ss := by
  match xs with
  | [] =>
    simp [splitFence] at hx
    simp [splitFence, ← hx.1, ← hx.2]
  | [b] =>
    simp [splitFence] at hx
    simp [splitFence, ← hx.1, ← hx.2]
  | b :: c :: rest =>
    have hcond : ¬(a = '`' ∧ b = '`' ∧ c = '`') := fun h => ha h.1
    unfold splitFence
    rw [if_neg hcond, hx]

theorem splitFence_fence_append {t l : List Char} (h : ∀ c ∈ t, c ≠ '`') :
    splitFence (t ++ ('`' :: '`' :: '`' :: l)) = t :: splitFence l := by
  induction t with
  | nil =>
    simp only [List.nil_append]
    conv_lhs => rw [splitFence]
    rw [if_pos ⟨rfl, rfl, rfl⟩]
  | cons a m ih =>
    have ha : a ≠ '`' := h a (List.mem_cons_self a m)
    have ih' := ih (fun c hc => h c (List.mem_cons_of_mem a hc))
    rw [List.cons_append]
    exact splitFence_cons ha ih'

theorem hasFence_of_no_btick {xs : List Char} (h : ∀ c ∈ xs, c ≠ '`') :
    hasFence xs = false := by
  induction xs with
  | nil => rfl
  | cons a l ih =>
    have ha : a ≠ '`' := h a (List.mem_cons_self a l)
    have ih' := ih (fun c hc => h c (List.mem_cons_of_mem a hc))
    match l with
    | [] => rfl
    | [b] => rfl
    | b :: c :: rest =>
      unfold hasFence
      rw [ih']
      simp [ha]

theorem hasFence_wrap (t : List Char) : hasFence (wrapFence t) = true := by
  unfold wrapFence hasFence
  simp

theorem replJson_cons {a : Char} (ha : a ≠ 'j') (xs : List Char) :
    replJson (a :: xs) = a :: replJson xs := by
  match xs with
  | [] => rfl
  | [b] => rfl
  | [b, c] => rfl
  | b :: c :: d :: rest =>
    have hcond : ¬(a = 'j' ∧ b = 's' ∧ c = 'o' ∧ d = 'n') := fun h => ha h.1
    show (if a = 'j' ∧ b = 's' ∧ c = 'o' ∧ d = 'n' then replJson rest
      else a :: replJson (b :: c :: d :: rest)) = a :: replJson (b :: c :: d :: rest)
    rw [if_neg hcond]

theorem replJson_of_no_json {xs : List Char} (h : hasJson xs = false) :
    replJson xs = xs := by
  induction xs with
  | nil => rfl
  | cons a l ih =>
    match l with
    | [] => rfl
    | [b] => rfl
    | [b, c] => rfl
    | b :: c :: d :: rest =>
      unfold hasJson at h
      rw [Bool.or_eq_false_iff] at h
      have h1 : ¬(a = 'j' ∧ b = 's' ∧ c = 'o' ∧ d = 'n') := by
        intro hq
        simp [hq.1, hq.2.1, hq.2.2.1, hq.2.2.2] at h
      conv_lhs => rw [replJson]
      rw [if_neg h1, ih h.2]

theorem hasJson_append_single {xs : List Char} {c : Char} (hc : c ≠ 'n')
    (h : hasJson xs = false) : hasJson (xs ++ [c]) = false := by
  induction xs with
  | nil => rfl
  | cons a l ih =>
    match l with
    | [] => simp [hasJson, hc]
    | [b] => simp [hasJson, hc]
    | [b, d] =>
      simp [hasJson, hc]
    | b :: d :: e :: rest =>
      unfold hasJson at h
      rw [Bool.or_eq_false_iff] at h
      have ih' := ih h.2
      have e1 : hasJson ((a :: b :: d :: e :: rest) ++ [c])
          = ((a = 'j' ∧ b = 's' ∧ d = 'o' ∧ e = 'n' : Bool)
            || hasJson ((b :: d :: e :: rest) ++ [c])) := rfl
      rw [e1, ih', h.1]
      rfl

theorem dropWhile_eq_self_of_head {p : Char → Bool} {xs : List Char}
    (h : ∀ a, xs.head? = some a → p a = false) : xs.dropWhile p = xs := by
  cases xs with
  | nil => rfl
  | cons a l =>
    have := h a rfl
    rw [List.dropWhile_cons_of_neg (by simp [this])]

theorem strip_eq_self {xs : List Char} (h1 : ∀ a, xs.head? = some a → pyWS a = false)
    (h2 : ∀ a, xs.getLast? = some a → pyWS a = false) : strip xs = xs := by
  unfold strip
  rw [dropWhile_eq_self_of_head h1]
  have h3 : ∀ a, xs.reverse.head? = some a → pyWS a = false := by
    intro a ha
    rw [List.head?_reverse] at ha
    exact h2 a ha
  rw [dropWhile_eq_self_of_head h3, List.reverse_reverse]

theorem wrapFence_concat (t : List Char) :
    wrapFence t
      = ('`' :: '`' :: '`' :: 'j' :: 's' :: 'o' :: 'n' :: '\n' :: (t ++ ['\n', '`', '`'])) ++ ['`'] := by
  simp [wrapFence]

theorem strip_wrap (t : List Char) : strip (wrapFence t) = wrapFence t := by
  apply strip_eq_self
  · intro a ha
    unfold wrapFence at ha
    simp only [List.head?_cons, Option.some.injEq] at ha
    rw [← ha]
    decide
  · intro a ha
    rw [wrapFence_concat, List.getLast?_concat, Option.some.injEq] at ha
    rw [← ha]
    decide

theorem clean_wrap {t : List Char} (h1 : '`' ∉ t) (h2 : hasJson t = false) :
    clean (wrapFence t) = strip t := by
  have hm : ∀ c ∈ ('j' :: 's' :: 'o' :: 'n' :: '\n' :: (t ++ ['\n'])), c ≠ '`' := by
    intro c hc he
    subst he
    simp only [List.mem_cons, List.mem_append] at hc
    simp at hc
    exact h1 hc
  have e2 : wrapFence t
      = '`' :: '`' :: '`'
        :: (('j' :: 's' :: 'o' :: 'n' :: '\n' :: (t ++ ['\n'])) ++ ('`' :: '`' :: '`' :: [])) := by
    simp [wrapFence]
  have e3 : splitFence (wrapFence t)
      = [[], 'j' :: 's' :: 'o' :: 'n' :: '\n' :: (t ++ ['\n']), []] := by
    rw [e2]
    have estep : splitFence ('`' :: '`' :: '`'
        :: (('j' :: 's' :: 'o' :: 'n' :: '\n' :: (t ++ ['\n'])) ++ ('`' :: '`' :: '`' :: [])))
        = [] :: splitFence (('j' :: 's' :: 'o' :: 'n' :: '\n' :: (t ++ ['\n']))
            ++ ('`' :: '`' :: '`' :: [])) := by
      conv_lhs => rw [splitFence]
      rw [if_pos ⟨rfl, rfl, rfl⟩]
    rw [estep, splitFence_fence_append hm]
    rfl
  have e4 : replJson ('j' :: 's' :: 'o' :: 'n' :: '\n' :: (t ++ ['\n']))
      = '\n' :: (t ++ ['\n']) := by
    have estep : replJson ('j' :: 's' :: 'o' :: 'n' :: ('\n' :: (t ++ ['\n'])))
        = replJson ('\n' :: (t ++ ['\n'])) := by
      conv_lhs => rw [replJson]
      rw [if_pos ⟨rfl, rfl, rfl, rfl⟩]
    rw [estep, replJson_cons (by decide),
      replJson_of_no_json (hasJson_append_single (by decide) h2)]
  simp only [clean]
  rw [strip_wrap, hasFence_wrap]
  simp only [if_true]
  rw [e3]
  simp only [List.getD_cons_succ, List.getD_cons_zero]
  rw [e4, strip_cons_ws (by decide), strip_append_ws (by decide)]

theorem clean_no_fence {t : List Char} (h1 : '`' ∉ t) : clean t = strip t := by
  have h : hasFence (strip t) = false := by
    apply hasFence_of_no_btick
    intro c hc he
    exact h1 (he ▸ mem_strip hc)
  simp only [clean]
  rw [h]
  simp

theorem eraParts_eq_spec (e : String) (ht : ¬ e = "") :
    eraParts (some e) = (specYearFilter e).toList := by
  simp only [eraParts, specYearFilter, eraTable]
  rw [if_neg ht]
  simp only [List.find?, List.any_cons, List.any_nil, Bool.or_false]
  by_cases h1 : (strIn "80s" (stripApos e) || strIn "1980" (stripApos e)) = true
  · simp [h1]
  · rw [Bool.not_eq_true] at h1
    by_cases h2 : (strIn "90s" (stripApos e) || strIn "1990" (stripApos e)) = true
    · simp [h1, h2]
    · rw [Bool.not_eq_true] at h2
      by_cases h3 : strIn "2000s" (stripApos e) = true
      · simp [h1, h2, h3]
      · rw [Bool.not_eq_true] at h3
        by_cases h4 : strIn "2010s" (stripApos e) = true
        · simp [h1, h2, h3, h4]
        · rw [Bool.not_eq_true] at h4
          by_cases h5 : strIn "2020s" (stripApos e) = true
          · simp [h1, h2, h3, h4, h5]
          · rw [Bool.not_eq_true] at h5
            simp [h1, h2, h3, h4, h5]

theorem eraParts_cases (o : Option String) :
    eraParts o = [] ∨ ∃ y, eraParts o = [y] ∧ isYearPart y = true := by
  match o with
  | none => exact Or.inl rfl
  | some e =>
    simp only [eraParts]
    by_cases h0 : e = ""
    · rw [if_pos h0]
      exact Or.inl rfl
    · rw [if_neg h0]
      by_cases h1 : (strIn "80s" (stripApos e) || strIn "1980" (stripApos e)) = true
      · simp only [h1, if_true]
        exact Or.inr ⟨_, rfl, by decide⟩
      · rw [Bool.not_eq_true] at h1
        simp only [h1, Bool.false_eq_true, if_false]
        by_cases h2 : (strIn "90s" (stripApos e) || strIn "1990" (stripApos e)) = true
        · simp only [h2, if_true]
          exact Or.inr ⟨_, rfl, by decide⟩
        · rw [Bool.not_eq_true] at h2
          simp only [h2, Bool.false_eq_true, if_false]
          by_cases h3 : strIn "2000s" (stripApos e) = true
          · simp only [h3, if_true]
            exact Or.inr ⟨_, rfl, by decide⟩
          · rw [Bool.not_eq_true] at h3
            simp only [h3, Bool.false_eq_true, if_false]
            by_cases h4 : strIn "2010s" (stripApos e) = true
            · simp only [h4, if_true]
              exact Or.inr ⟨_, rfl, by decide⟩
            · rw [Bool.not_eq_true] at h4
              simp only [h4, Bool.false_eq_true, if_false]
              by_cases h5 : strIn "2020s" (stripApos e) = true
              · simp only [h5, if_true]
                exact Or.inr ⟨_, rfl, by decide⟩
              · rw [Bool.not_eq_true] at h5
                simp only [h5, Bool.false_eq_true, if_false]
                exact Or.inl (by trivial)

theorem isYearPart_base {p : SearchParams} {s : String} (h : s ∈ baseParts p) :
    isYearPart s = false := by
  unfold baseParts at h
  rw [List.mem_append] at h
  have hg : ∀ g : String, isYearPart ("genre:" ++ g) = false := fun g => rfl
  have ha : ∀ g : String, isYearPart ("artist:" ++ g) = false := fun g => rfl
  rcases h with h | h
  · by_cases hc : truthy p.genre
    · rw [if_pos hc] at h
      rw [List.mem_singleton] at h
      rw [h]
      exact hg _
    · rw [if_neg hc] at h
      simp at h
  · by_cases hc : truthy p.artist
    · rw [if_pos hc] at h
      rw [List.mem_singleton] at h
      rw [h]
      exact ha _
    · rw [if_neg hc] at h
      simp at h

/-- Whether a token-response body lacks the access-token field. -/

theorem search_parse_error {env : Env} {e : String}
    (hp : parse_query env.decode env.lm = .error e) :
    search env =
      { envelope := { error := some ("Error: " ++ e), extracted_params := {}, tracks := [] }
        tokenCalled := false, searchCalled := false } := by
  unfold search
  rw [hp]

theorem search_token_error {env : Env} {params : SearchParams} {tc : Bool} {e : String}
    (hp : parse_query env.decode env.lm = .ok params)
    (hg : get_spotify_token env.clientId env.clientSecret env.tokenResp = (tc, .error e)) :
    search env =
      { envelope := { error := some ("Error: " ++ e), extracted_params := {}, tracks := [] }
        tokenCalled := tc, searchCalled := false } := by
  unfold search
  rw [hp, hg]

theorem search_no_tracks {env : Env} {params : SearchParams} {tc sc : Bool} {tok : String}
    {res : Option (List Track)}
    (hp : parse_query env.decode env.lm = .ok params)
    (hg : get_spotify_token env.clientId env.clientSecret env.tokenResp = (tc, .ok tok))
    (hs : search_spotify env.net params tok = (sc, res))
    (hres : res = none ∨ res = some []) :
    search env =
      { envelope := { error := some "Sorry, can't find any tracks"
                      extracted_params := params, tracks := [] }
        tokenCalled := tc, searchCalled := sc } := by
  unfold search
  rw [hp, hg]
  dsimp only
  rcases hres with rfl | rfl
  · rw [hs]
  · rw [hs]

theorem search_success {env : Env} {params : SearchParams} {tc sc : Bool} {tok : String}
    {t : Track} {ts : List Track}
    (hp : parse_query env.decode env.lm = .ok params)
    (hg : get_spotify_token env.clientId env.clientSecret env.tokenResp = (tc, .ok tok))
    (hs : search_spotify env.net params tok = (sc, some (t :: ts))) :
    search env =
      { envelope := { error := none, extracted_params := params, tracks := t :: ts }
        tokenCalled := tc, searchCalled := sc } := by
  unfold search
  rw [hp, hg]
  dsimp only
  rw [hs]

/-! ### The claims -/

/-- C1: for SearchParams genre "hip-hop", artist "Nas", era "90s" (as decoded
from the mocked interpreter content for the query "90s hip-hop by Nas"), the
builder produces exactly "genre:hip-hop artist:Nas year:1990-1999": present
fields as field:value pairs, space-joined, genre before artist, year filter
last. -/
theorem C1_scenario1_query_string :
    parseContent decodeParams ("\x7b\"genre\":\"hip-hop\",\"artist\":\"Nas\",\"era\":\"90s\"\x7d".data)
      = { genre := some "hip-hop", artist := some "Nas", era := some "90s" } ∧
    searchQuery { genre := some "hip-hop", artist := some "Nas", era := some "90s" }
      = "genre:hip-hop artist:Nas year:1990-1999" := by
  refine ⟨?_, ?_⟩ <;> decide

/-- C2: with a present (truthy) era string, the built parts are the base parts
followed by exactly the year filter of the spec's five-row substring table
applied to the apostrophe-stripped era (first matching row wins); when no row
matches, no year filter is appended and the query string is the one built with
no era at all — no error in any case. -/
theorem C2_era_year_filter (p : SearchParams) (e : String) (he : p.era = some e) (hne : ¬ e = "") :
    queryParts p = baseParts p ++ (specYearFilter e).toList ∧
    (specYearFilter e = none →
      searchQuery p = searchQuery { genre := p.genre, artist := p.artist, era := none }) := by
  have h1 : eraParts p.era = (specYearFilter e).toList := by
    rw [he]
    exact eraParts_eq_spec e hne
  constructor
  · unfold queryParts
    rw [h1]
  · intro h0
    unfold searchQuery queryParts
    rw [h1, h0]
    rfl

/-- C2 (witness): the claim at the concrete era "'90s" (apostrophe-elided
form), which maps to year:1990-1999. -/
theorem C2_era_year_filter_witness :
    queryParts { genre := some "pop", artist := none, era := some "'90s" }
      = baseParts { genre := some "pop", artist := none, era := some "'90s" }
        ++ (specYearFilter "'90s").toList ∧
    (specYearFilter "'90s" = none →
      searchQuery { genre := some "pop", artist := none, era := some "'90s" }
        = searchQuery { genre := some "pop", artist := none, era := none }) :=
  C2_era_year_filter { genre := some "pop", artist := none, era := some "'90s" } "'90s" rfl (by decide)

/-- C3 (counterexample): the claim fails as stated.  With the mocked
interpreter response \x7b"era":"90s"\x7d the extracted params have genre and
artist absent and no search call is issued, yet the envelope is not
\x7berror, extracted_params: \x7b\x7d, tracks: []\x7d: its extracted_params
carry the era, so they differ from the empty object. -/
theorem C3_counterexample :
    parse_query envEraOnly.decode envEraOnly.lm = .ok { era := some "90s" } ∧
    truthy ({ era := some "90s" } : SearchParams).genre = false ∧
    truthy ({ era := some "90s" } : SearchParams).artist = false ∧
    (search envEraOnly).searchCalled = false ∧
    (search envEraOnly).envelope.extracted_params ≠ ({} : SearchParams) ∧
    (search envEraOnly).envelope ≠
      { error := some "Sorry, can't find any tracks", extracted_params := {}, tracks := [] } := by
  refine ⟨rfl, rfl, rfl, ?_, ?_, ?_⟩ <;> decide

/-- C3 (amended): for every request whose interpreted SearchParams has both
genre and artist absent, no outbound search call is issued, and whenever the
token fetch succeeds the endpoint returns the envelope
\x7berror: "Sorry, can't find any tracks", extracted_params: params,
tracks: []\x7d, where params are the extracted params (equal to \x7b\x7d only
when era is absent too). -/
theorem C3_short_circuit_amended (env : Env) (params : SearchParams)
    (hp : parse_query env.decode env.lm = .ok params)
    (hgenre : truthy params.genre = false) (hartist : truthy params.artist = false) :
    (search env).searchCalled = false ∧
    (∀ tc tok, get_spotify_token env.clientId env.clientSecret env.tokenResp = (tc, .ok tok) →
      (search env).envelope =
        { error := some "Sorry, can't find any tracks", extracted_params := params, tracks := [] }) := by
  have hss : ∀ tok, search_spotify env.net params tok = (false, none) := by
    intro tok
    unfold search_spotify
    rw [if_pos (by simp [hgenre, hartist])]
  constructor
  · cases hg : get_spotify_token env.clientId env.clientSecret env.tokenResp with
    | mk tc tr =>
      cases tr with
      | error e => rw [search_token_error hp hg]
      | ok tok => rw [search_no_tracks hp hg (hss tok) (Or.inl rfl)]
  · intro tc tok hg
    rw [search_no_tracks hp hg (hss tok) (Or.inl rfl)]

/-- C3 (witness): the amended claim at the mocked response \x7b\x7d, where the
extracted params are all-absent and the token fetch succeeds. -/
theorem C3_short_circuit_witness :
    (search envEmptyParams).searchCalled = false ∧
    (search envEmptyParams).envelope =
      { error := some "Sorry, can't find any tracks", extracted_params := {}, tracks := [] } :=
  ⟨(C3_short_circuit_amended envEmptyParams {} rfl rfl rfl).1,
   (C3_short_circuit_amended envEmptyParams {} rfl rfl rfl).2 true "tok" rfl⟩

/-- C4 (counterexample): the claim fails as stated.  A 200 model-provider
response whose body is not JSON of the expected shape makes the extraction
line `response.json()["choices"][0]["message"]["content"]` raise: the
interpreter propagates an exception instead of returning the all-absent
SearchParams. -/
theorem C4_counterexample :
    parse_query decodeParams { status := 200, body := .malformed }
      = .error "model response body is not JSON with choices[0].message.content" := rfl

/-- C4 (amended): the interpreter raises exactly when a 200 response body is
not JSON with the choices[0].message.content path; on a non-200 response, and
on a well-formed body whose extracted content fails to decode, it returns the
all-absent SearchParams. -/
theorem C4_parse_never_raises_amended (decode : List Char → Option SearchParams) (r : LMResp) :
    ((∃ e, parse_query decode r = .error e) ↔ (r.status = 200 ∧ r.body = LMBody.malformed)) ∧
    (r.status ≠ 200 → parse_query decode r = .ok {}) ∧
    (∀ c, r.body = LMBody.ok c → decode (clean c) = none → parse_query decode r = .ok {}) := by
  obtain ⟨st, body⟩ := r
  unfold parse_query
  by_cases hs : st = 200
  · subst hs
    rw [if_neg (not_not_intro rfl)]
    cases body with
    | malformed =>
      refine ⟨⟨fun _ => ⟨rfl, rfl⟩, fun _ => ⟨_, rfl⟩⟩, fun h => absurd rfl h, ?_⟩
      intro c hc
      exact LMBody.noConfusion hc
    | ok content =>
      refine ⟨⟨?_, ?_⟩, fun h => absurd rfl h, ?_⟩
      · rintro ⟨e, he⟩
        exact Except.noConfusion he
      · rintro ⟨_, h⟩
        exact LMBody.noConfusion h
      · intro c hc hdec
        simp only [LMBody.ok.injEq] at hc
        subst hc
        dsimp only
        unfold parseContent
        rw [hdec]
        rfl
  · rw [if_pos (by simpa using hs)]
    refine ⟨⟨?_, ?_⟩, fun _ => rfl, fun _ _ _ => rfl⟩
    · rintro ⟨e, he⟩
      exact Except.noConfusion he
    · rintro ⟨h, _⟩
      exact absurd h hs

/-- C5 (counterexample): the claim fails as stated.  For the JSON text
\x7b"artist":"json"\x7d, the fenced form decodes to artist "" (the
`replace("json", "")` step deletes the occurrence of "json" inside the
payload), while the unwrapped form decodes to artist "json". -/
theorem C5_counterexample :
    parseContent decodeParams (wrapFence ("\x7b\"artist\":\"json\"\x7d".data))
        = { artist := some "" } ∧
    parseContent decodeParams ("\x7b\"artist\":\"json\"\x7d".data) = { artist := some "json" } ∧
    parseContent decodeParams (wrapFence ("\x7b\"artist\":\"json\"\x7d".data))
      ≠ parseContent decodeParams ("\x7b\"artist\":\"json\"\x7d".data) := by
  refine ⟨?_, ?_, ?_⟩ <;> decide

/-- C5 (amended): for every JSON text containing no backtick and no occurrence
of the substring "json", cleaning-plus-parsing of the text wrapped in
triple-backtick fences with a "json" language tag yields the same
SearchParams as cleaning-plus-parsing of the unwrapped text, for every
decoder. -/
theorem C5_fence_roundtrip_amended (decode : List Char → Option SearchParams) (t : List Char)
    (h1 : '`' ∉ t) (h2 : hasJson t = false) :
    parseContent decode (wrapFence t) = parseContent decode t := by
  unfold parseContent
  rw [clean_wrap h1 h2, clean_no_fence h1]

/-- C5 (witness): the amended round-trip at the concrete JSON text
\x7b"genre":"pop"\x7d with the modelled decoder. -/
theorem C5_fence_roundtrip_witness :
    '`' ∉ "\x7b\"genre\":\"pop\"\x7d".data ∧
    hasJson "\x7b\"genre\":\"pop\"\x7d".data = false ∧
    parseContent decodeParams (wrapFence ("\x7b\"genre\":\"pop\"\x7d".data))
      = parseContent decodeParams ("\x7b\"genre\":\"pop\"\x7d".data) :=
  ⟨by decide, by decide, C5_fence_roundtrip_amended decodeParams _ (by decide) (by decide)⟩

/-- C6: if either catalog credential secret is missing from the environment,
the authenticator fails before issuing any network call (its call flag is
false and it returns the credentials error), and the search endpoint returns
an error envelope with an error message and an empty track list. -/
theorem C6_missing_credentials (env : Env) (h : env.clientId = none ∨ env.clientSecret = none) :
    (get_spotify_token env.clientId env.clientSecret env.tokenResp).1 = false ∧
    (get_spotify_token env.clientId env.clientSecret env.tokenResp).2
      = .error "Spotify credentials not found in .env file" ∧
    (search env).tokenCalled = false ∧
    (search env).envelope.error.isSome = true ∧
    (search env).envelope.tracks = [] := by
  have hcred : (!truthy env.clientId || !truthy env.clientSecret) = true := by
    rcases h with h | h
    · rw [h]
      rfl
    · rw [h]
      simp [truthy]
  have hg : get_spotify_token env.clientId env.clientSecret env.tokenResp
      = (false, .error "Spotify credentials not found in .env file") := by
    unfold get_spotify_token
    rw [if_pos hcred]
  refine ⟨by rw [hg], by rw [hg], ?_⟩
  cases hp : parse_query env.decode env.lm with
  | error e =>
    rw [search_parse_error hp]
    exact ⟨rfl, rfl, rfl⟩
  | ok params =>
    rw [search_token_error hp hg]
    exact ⟨rfl, rfl, rfl⟩

/-- C6 (witness): the claim at a concrete environment with the client id
missing. -/
theorem C6_missing_credentials_witness :
    (get_spotify_token envNoCreds.clientId envNoCreds.clientSecret envNoCreds.tokenResp).1
      = false ∧
    (get_spotify_token envNoCreds.clientId envNoCreds.clientSecret envNoCreds.tokenResp).2
      = .error "Spotify credentials not found in .env file" ∧
    (search envNoCreds).tokenCalled = false ∧
    (search envNoCreds).envelope.error.isSome = true ∧
    (search envNoCreds).envelope.tracks = [] :=
  C6_missing_credentials envNoCreds (Or.inl rfl)

/-- C7: if the token response has a non-success status or its body lacks an
access-token field, the authenticator fails with an error, and the search
endpoint surfaces an error envelope with an empty track list; for a non-200
status the message is the authentication-failure message. -/
theorem C7_token_failure_envelope (env : Env) (params : SearchParams)
    (hp : parse_query env.decode env.lm = .ok params)
    (hid : truthy env.clientId = true) (hsec : truthy env.clientSecret = true)
    (hfail : env.tokenResp.status ≠ 200 ∨ lacksToken env.tokenResp.body = true) :
    isErr (get_spotify_token env.clientId env.clientSecret env.tokenResp).2 = true ∧
    (search env).envelope.error.isSome = true ∧
    (search env).envelope.tracks = [] ∧
    (search env).searchCalled = false ∧
    (env.tokenResp.status ≠ 200 →
      (search env).envelope.error
        = some ("Error: " ++ ("Spotify authentication failed: " ++ env.tokenResp.text))) := by
  have hcred : ¬ ((!truthy env.clientId || !truthy env.clientSecret) = true) := by
    simp [hid, hsec]
  by_cases hst : env.tokenResp.status = 200
  · rcases hfail with h | hb
    · exact absurd hst h
    · obtain ⟨rp, hbody⟩ : ∃ rp, env.tokenResp.body = .noToken rp := by
        cases hb2 : env.tokenResp.body with
        | withToken tok =>
          rw [hb2] at hb
          exact absurd hb (by simp [lacksToken])
        | noToken rp => exact ⟨rp, rfl⟩
      have hg : get_spotify_token env.clientId env.clientSecret env.tokenResp
          = (true, .error ("No access_token in response: " ++ rp)) := by
        unfold get_spotify_token
        rw [if_neg hcred, if_neg (by simpa using hst), hbody]
      rw [search_token_error hp hg, hg]
      exact ⟨rfl, rfl, rfl, rfl, fun h => absurd hst h⟩
  · have hg : get_spotify_token env.clientId env.clientSecret env.tokenResp
        = (true, .error ("Spotify authentication failed: " ++ env.tokenResp.text)) := by
      unfold get_spotify_token
      rw [if_neg hcred, if_pos (by simpa using hst)]
    rw [search_token_error hp hg, hg]
    exact ⟨rfl, rfl, rfl, rfl, fun _ => rfl⟩

/-- C7 (witness): the claim at a concrete environment whose token endpoint
answers 500. -/
theorem C7_token_failure_witness :
    isErr (get_spotify_token envBadToken.clientId envBadToken.clientSecret
      envBadToken.tokenResp).2 = true ∧
    (search envBadToken).envelope.error.isSome = true ∧
    (search envBadToken).envelope.tracks = [] ∧
    (search envBadToken).searchCalled = false ∧
    (envBadToken.tokenResp.status ≠ 200 →
      (search envBadToken).envelope.error
        = some ("Error: " ++ ("Spotify authentication failed: " ++ envBadToken.tokenResp.text))) :=
  C7_token_failure_envelope envBadToken { genre := some "pop" } rfl rfl rfl (Or.inl (by decide))

/-- C8: for every SearchParams the query parts are the genre/artist parts
followed by the era parts; the era parts hold at most one element, every era
part is a year filter, and no genre/artist part is one — so the query string
contains at most one year filter and it comes after genre and artist. -/
theorem C8_at_most_one_year_filter (p : SearchParams) :
    queryParts p = baseParts p ++ eraParts p.era ∧
    (eraParts p.era).length ≤ 1 ∧
    (∀ s ∈ eraParts p.era, isYearPart s = true) ∧
    (∀ s ∈ baseParts p, isYearPart s = false) := by
  refine ⟨rfl, ?_, ?_, fun s hs => isYearPart_base hs⟩
  · rcases eraParts_cases p.era with h | ⟨y, hy, _⟩
    · rw [h]
      simp
    · rw [hy]
      simp
  · intro s hs
    rcases eraParts_cases p.era with h | ⟨y, hy, hyp⟩
    · rw [h] at hs
      simp at hs
    · rw [hy] at hs
      rw [List.mem_singleton] at hs
      rw [hs]
      exact hyp

/-- C9: whenever a step of the orchestrator raises (the interpreter or the
token fetch returns an error), the returned envelope has extracted_params
equal to the empty object and an empty track list, discarding any parameters
already extracted. -/
theorem C9_exception_discards_params (env : Env)
    (h : (∃ e, parse_query env.decode env.lm = .error e) ∨
      (∃ e, (get_spotify_token env.clientId env.clientSecret env.tokenResp).2 = .error e)) :
    (search env).envelope.extracted_params = {} ∧ (search env).envelope.tracks = [] := by
  cases hp : parse_query env.decode env.lm with
  | error e => rw [search_parse_error hp]; exact ⟨rfl, rfl⟩
  | ok params =>
    cases hg : get_spotify_token env.clientId env.clientSecret env.tokenResp with
    | mk tc tr =>
      cases tr with
      | error e => rw [search_token_error hp hg]; exact ⟨rfl, rfl⟩
      | ok tok =>
        exfalso
        rcases h with ⟨e, he⟩ | ⟨e, he⟩
        · rw [hp] at he
          exact Except.noConfusion he
        · rw [hg] at he
          simp at he

/-- C9 (witness): the claim at a concrete environment whose token fetch fails
for missing credentials. -/
theorem C9_exception_discards_params_witness :
    (search envNoCreds).envelope.extracted_params = {} ∧
    (search envNoCreds).envelope.tracks = [] :=
  C9_exception_discards_params envNoCreds (Or.inr ⟨"Spotify credentials not found in .env file", rfl⟩)

/-- C10: for every request, the envelope carries an error message exactly when
its track list is empty: the success envelope has no error and a non-empty
list, every other envelope has an error and an empty list. -/
theorem C10_error_iff_no_tracks (env : Env) :
    (search env).envelope.error.isSome = true ↔ (search env).envelope.tracks = [] := by
  cases hp : parse_query env.decode env.lm with
  | error e => rw [search_parse_error hp]; simp
  | ok params =>
    cases hg : get_spotify_token env.clientId env.clientSecret env.tokenResp with
    | mk tc tr =>
      cases tr with
      | error e => rw [search_token_error hp hg]; simp
      | ok tok =>
        cases hs : search_spotify env.net params tok with
        | mk sc res =>
          match res, hs with
          | none, hs => rw [search_no_tracks hp hg hs (Or.inl rfl)]; simp
          | some [], hs => rw [search_no_tracks hp hg hs (Or.inr rfl)]; simp
          | some (t :: ts), hs => rw [search_success hp hg hs]; simp
